import Mathlib

/-!
# A verification model of the `structify` declarative binary record serializer

This file is a shallow embedding, in Lean 4, of `src/structify/__init__.py`:
field descriptors (`StructField` and the per-type constructor helpers), the
layout compiler (`MetaStruct.__new__`), and the record operations
(`Struct.__init__`, `get_field_value`, `set_field_value`, `pack`,
`pack_endian`, `unpack`, `unpack_endian`, `__len__`/`sizeof`).

Conventions of the embedding:

* Python exceptions become an explicit error type `PyError`; an operation that
  can raise returns `Except PyError α`.  An operation that raises before any
  assignment leaves the record state untouched; in the embedding this is the
  `.error` branch, which returns no new state.
* The library delegates the byte-level encoding to Python's standard `struct`
  module, whose code is not part of this repository.  That encoding engine is
  modelled from the spec's wire-format description (section 6): fixed-width
  two's-complement integers, IEEE-754 floats, raw fixed-length byte fields,
  concatenated in order, with the byte order given by the leading format
  character.  A float value is modelled by its IEEE-754 bit pattern at the
  field's declared width.  Native byte order (`'@'`) is modelled with
  little-endian data and the C ABI alignment rule of the mainstream 64-bit
  platforms (each scalar aligned to its size); the standard modes
  `'='`, `'<'`, `'>'`, `'!'` use no padding.
* `MetaStruct.__new__` walks `reversed(cls.__mro__)`; the embedding takes the
  corresponding list of class bodies ("layers"), most-base first, each an
  insertion-ordered list of `(attribute name, descriptor)` pairs, and models
  Python dict insertion/update order exactly.
* `struct.unpack` returns a tuple, and `Struct.unpack` assigns that tuple to
  `self.values`; the record state therefore carries a flag recording whether
  `values` currently holds a tuple (item assignment on it raises `TypeError`)
  or the list created by `__init__`.
-/

namespace Structify

/-- A Python value that can sit in a record's `values` list: an `int`, a
`bytes` object (a list of byte values), a `float` (modelled by the IEEE-754
bit pattern at the width of the field it is packed into), or `None` (the
default used by the field constructors when no default is given). -/
inductive Value where
  | vint (i : Int)
  | vbytes (b : List Nat)
  | vfloat (bits : Nat)
  | vnone
deriving DecidableEq, Repr

/-- The Python exceptions the library's operations can raise.
`structException` is the library's own error class `StructException`
(the spec's `ConfigurationError`); `structError` is the standard
`struct.error` raised by the stdlib packing engine (the spec's
`PackingError`); `keyError`, `typeError` and `indexError` are the Python
builtins raised by dict lookup, tuple item assignment and list indexing. -/
inductive PyError where
  | structException (msg : String)
  | structError (msg : String)
  | keyError (key : String)
  | typeError (msg : String)
  | indexError (msg : String)
deriving DecidableEq, Repr

/-! ## Format characters and byte-order characters (source lines 6-24) -/

def INT8_T : Char := 'b'
def UINT8_T : Char := 'B'
def INT16_T : Char := 'h'
def UINT16_T : Char := 'H'
def INT32_T : Char := 'i'
def UINT32_T : Char := 'I'
def INT64_T : Char := 'q'
def UINT64_T : Char := 'Q'
def CHAR : Char := 's'
def FLOAT32_T : Char := 'f'
def FLOAT64_T : Char := 'd'

def BYTE_ORDER_NATIVE : Char := '@'
def BYTE_ORDER_NATIVE_STD : Char := '='
def BYTE_ORDER_LITTLE_ENDIAN : Char := '<'
def BYTE_ORDER_BIG_ENDIAN : Char := '>'
def BYTE_ORDER_NETWORK : Char := '!'

def DEFAULT_BYTE_ORDER : Char := BYTE_ORDER_LITTLE_ENDIAN

/-- The five byte-order characters accepted by the stdlib format language. -/
def validByteOrder (c : Char) : Bool :=
  c = BYTE_ORDER_NATIVE || c = BYTE_ORDER_NATIVE_STD ||
    c = BYTE_ORDER_LITTLE_ENDIAN || c = BYTE_ORDER_BIG_ENDIAN ||
    c = BYTE_ORDER_NETWORK

/-- `'>'` and `'!'` select big-endian data; `'<'` is little-endian, and the
native modes `'@'`/`'='` are little-endian on the modelled platform. -/
def isBigEndian (c : Char) : Bool :=
  c = BYTE_ORDER_BIG_ENDIAN || c = BYTE_ORDER_NETWORK

/-! ## Field descriptors (source lines 33-107) -/

/-- The data of one `StructField` descriptor: the format character, the
default value (`vnone` when the Python default is `None`), the optional
`str_len`, the global declaration counter value `count`, and the attribute
`name` bound by `__set_name__` at class-creation time. -/
structure StructFieldData where
  field_type : Char
  default : Value
  str_len : Option Int
  count : Nat
  name : String
deriving DecidableEq, Repr

/-- Python's truthiness test `not str_len`: true for `None` and for `0`. -/
def falsyLen : Option Int → Bool
  | none => true
  | some n => n = 0

/-- `StructField.__init__` (source lines 37-51): rejects a CHAR field whose
`str_len` is falsy (`None` or `0`), otherwise records the data.  The
declaration counter is threaded explicitly as `count`; `name` starts empty
and is bound by the class-creation walk. -/
def mkStructField (field_type : Char) (default : Value) (str_len : Option Int)
    (count : Nat) : Except PyError StructFieldData :=
  if field_type = CHAR && falsyLen str_len then
    .error (.structException
      "CHAR fields are fixed width and require strlen to be specified")
  else
    .ok { field_type := field_type, default := default, str_len := str_len,
          count := count, name := "" }

/-- `int8_t(default)` (source line 66). -/
def int8_t (default : Value) (count : Nat) : Except PyError StructFieldData :=
  mkStructField INT8_T default none count

/-- `uint8_t(default)` (source line 70). -/
def uint8_t (default : Value) (count : Nat) : Except PyError StructFieldData :=
  mkStructField UINT8_T default none count

/-- `int16_t(default)` (source line 74). -/
def int16_t (default : Value) (count : Nat) : Except PyError StructFieldData :=
  mkStructField INT16_T default none count

/-- `uint16_t(default)` (source line 78). -/
def uint16_t (default : Value) (count : Nat) : Except PyError StructFieldData :=
  mkStructField UINT16_T default none count

/-- `int32_t(default)` (source line 82). -/
def int32_t (default : Value) (count : Nat) : Except PyError StructFieldData :=
  mkStructField INT32_T default none count

/-- `uint32_t(default)` (source line 86). -/
def uint32_t (default : Value) (count : Nat) : Except PyError StructFieldData :=
  mkStructField UINT32_T default none count

/-- `int64_t(default)` (source line 90). -/
def int64_t (default : Value) (count : Nat) : Except PyError StructFieldData :=
  mkStructField INT64_T default none count

/-- `uint64_t(default)` (source line 94). -/
def uint64_t (default : Value) (count : Nat) : Except PyError StructFieldData :=
  mkStructField UINT64_T default none count

/-- `float32_t(default)` (source line 98). -/
def float32_t (default : Value) (count : Nat) : Except PyError StructFieldData :=
  mkStructField FLOAT32_T default none count

/-- `float64_t(default)` (source line 102). -/
def float64_t (default : Value) (count : Nat) : Except PyError StructFieldData :=
  mkStructField FLOAT64_T default none count

/-- `char(strlen, default)` (source line 106). -/
def char (strlen : Int) (default : Value) (count : Nat) :
    Except PyError StructFieldData :=
  mkStructField CHAR default (some strlen) count

/-! ## The packing engine

Modelled from the spec: the byte-level encoding performed by Python's stdlib
`struct` module (not code of this repository), per the spec's section 6 wire
format — fixed-width two's-complement integers at widths 1/2/4/8, IEEE-754
floats represented by their bit patterns, fixed-length raw byte fields, and
the five byte-order modes with native alignment only under `'@'`. -/

/-- The interpretation of a format character: a signed or unsigned integer of
`w` bytes, a float of `w` bytes, or a fixed-length byte field. -/
inductive FieldKind where
  | signed (w : Nat)
  | unsigned (w : Nat)
  | floating (w : Nat)
  | chars
deriving DecidableEq, Repr

/-- Width and signedness denoted by each format character (the characters
are the constants `INT8_T` … `CHAR` above; any other character is not part
of the format language). -/
def kindOf (c : Char) : Option FieldKind :=
  match c with
  | 'b' => some (.signed 1)
  | 'B' => some (.unsigned 1)
  | 'h' => some (.signed 2)
  | 'H' => some (.unsigned 2)
  | 'i' => some (.signed 4)
  | 'I' => some (.unsigned 4)
  | 'q' => some (.signed 8)
  | 'Q' => some (.unsigned 8)
  | 'f' => some (.floating 4)
  | 'd' => some (.floating 8)
  | 's' => some .chars
  | _ => none

/-- The declared length of a CHAR field as a natural number (the format
renders `str_len` into the format string; a compiled type always has a
non-negative length there). -/
def strLenNat (f : StructFieldData) : Nat := (f.str_len.getD 0).toNat

/-- The packed width of one field in bytes: the declared fixed length for a
CHAR field, the primitive width otherwise. -/
def fieldSize (f : StructFieldData) : Nat :=
  match kindOf f.field_type with
  | some (.signed w) => w
  | some (.unsigned w) => w
  | some (.floating w) => w
  | some .chars => strLenNat f
  | none => 0

/-- `w` little-endian base-256 digits of `n`. -/
def encWordLE : Nat → Nat → List Nat
  | 0, _ => []
  | w + 1, n => n % 256 :: encWordLE w (n / 256)

/-- Read back a little-endian base-256 digit list. -/
def decWordLE : List Nat → Nat
  | [] => 0
  | b :: bs => b + 256 * decWordLE bs

/-- Encode a `w`-byte machine word in the byte order selected by `bo`. -/
def encWord (bo : Char) (w n : Nat) : List Nat :=
  if isBigEndian bo then (encWordLE w n).reverse else encWordLE w n

/-- Decode a machine word in the byte order selected by `bo`. -/
def decWord (bo : Char) (b : List Nat) : Nat :=
  if isBigEndian bo then decWordLE b.reverse else decWordLE b

/-- Encode one field value, or fail (`struct.error`) when the value's type or
range does not fit the field: integers must lie in the type's representable
range, a float must carry a bit pattern of the declared width, and a CHAR
field accepts any bytes object, truncated or zero-padded to the declared
length exactly as the stdlib `'s'` code does. -/
def encodeField (bo : Char) (f : StructFieldData) (v : Value) :
    Option (List Nat) :=
  match kindOf f.field_type, v with
  | some (.signed w), .vint i =>
      if -(2 ^ (8 * w - 1) : Int) ≤ i ∧ i < (2 ^ (8 * w - 1) : Int) then
        some (encWord bo w (i % (2 ^ (8 * w) : Int)).toNat)
      else none
  | some (.unsigned w), .vint i =>
      if 0 ≤ i ∧ i < (2 ^ (8 * w) : Int) then some (encWord bo w i.toNat)
      else none
  | some (.floating w), .vfloat bits =>
      if bits < 2 ^ (8 * w) then some (encWord bo w bits) else none
  | some .chars, .vbytes b =>
      some (List.take (strLenNat f)
        (b.map (fun x => x % 256) ++ List.replicate (strLenNat f) 0))
  | _, _ => none

/-- Decode one field from exactly `fieldSize f` bytes.  Every byte pattern of
the right width decodes: unsigned integers read the word directly, signed
integers take the two's-complement reading, floats keep the bit pattern,
CHAR fields keep the raw bytes. -/
def decodeField (bo : Char) (f : StructFieldData) (b : List Nat) : Value :=
  match kindOf f.field_type with
  | some (.signed w) =>
      let n := decWord bo b
      .vint (if 2 ^ (8 * w - 1) ≤ n then (n : Int) - (2 ^ (8 * w) : Int)
             else (n : Int))
  | some (.unsigned _) => .vint (decWord bo b)
  | some (.floating _) => .vfloat (decWord bo b)
  | some .chars => .vbytes b
  | none => .vnone

/-- The C ABI alignment of a field on the modelled platform: scalars align to
their size, byte fields to 1.  Relevant only under native mode `'@'`. -/
def alignOf (f : StructFieldData) : Nat :=
  match kindOf f.field_type with
  | some (.signed w) => w
  | some (.unsigned w) => w
  | some (.floating w) => w
  | _ => 1

/-- The number of zero pad bytes inserted before a field that starts at
offset `off`: alignment padding under `'@'`, none under the standard modes. -/
def padAt (bo : Char) (f : StructFieldData) (off : Nat) : Nat :=
  if bo = BYTE_ORDER_NATIVE then
    (alignOf f - off % alignOf f) % alignOf f
  else 0

/-- Packed size of a field sequence starting at offset `off` (pad bytes
included). -/
def calcSizeAux (bo : Char) : List StructFieldData → Nat → Nat
  | [], _ => 0
  | f :: fs, off =>
      let pad := padAt bo f off
      let sz := fieldSize f
      pad + sz + calcSizeAux bo fs (off + pad + sz)

/-- `struct.calcsize(bo + fmt)`: the total packed size of the field list. -/
def calcSize (bo : Char) (fields : List StructFieldData) : Nat :=
  calcSizeAux bo fields 0

/-- Pack a value list against a field list starting at offset `off`:
`struct.error` (i.e. `none`) when the argument count differs from the field
count or some value cannot be encoded; otherwise the concatenation of pad
bytes and field encodings. -/
def packFieldsAux (bo : Char) :
    List StructFieldData → List Value → Nat → Option (List Nat)
  | [], [], _ => some []
  | f :: fs, v :: vs, off =>
      let pad := padAt bo f off
      match encodeField bo f v, packFieldsAux bo fs vs (off + pad + fieldSize f) with
      | some e, some rest => some (List.replicate pad 0 ++ e ++ rest)
      | _, _ => none
  | _, _, _ => none

/-- `struct.pack(bo + fmt, *values)`. -/
def packFields (bo : Char) (fields : List StructFieldData)
    (values : List Value) : Option (List Nat) :=
  packFieldsAux bo fields values 0

/-- Decode a byte list field by field from offset `off` (total; callers check
the length first, as `struct.unpack` does). -/
def decodeFieldsAux (bo : Char) :
    List StructFieldData → List Nat → Nat → List Value
  | [], _, _ => []
  | f :: fs, b, off =>
      let pad := padAt bo f off
      let sz := fieldSize f
      decodeField bo f ((b.drop pad).take sz) ::
        decodeFieldsAux bo fs (b.drop (pad + sz)) (off + pad + sz)

/-- `struct.unpack(bo + fmt, b)`: requires the buffer length to equal
`calcsize` exactly, then decodes every field in position order. -/
def unpackFields (bo : Char) (fields : List StructFieldData)
    (b : List Nat) : Option (List Value) :=
  if b.length = calcSize bo fields then
    some (decodeFieldsAux bo fields b 0)
  else none

/-- Sum of the declared field widths, with no alignment padding. -/
def sumWidths (fields : List StructFieldData) : Nat :=
  (fields.map fieldSize).sum

/-- A value is valid for its field's declared primitive type and width:
an integer in the representable range, a float bit pattern of the declared
width, or a bytes object of exactly the declared fixed length. -/
def validValue (f : StructFieldData) (v : Value) : Bool :=
  match kindOf f.field_type, v with
  | some (.signed w), .vint i =>
      decide (-(2 ^ (8 * w - 1) : Int) ≤ i) && decide (i < (2 ^ (8 * w - 1) : Int))
  | some (.unsigned w), .vint i =>
      decide (0 ≤ i) && decide (i < (2 ^ (8 * w) : Int))
  | some (.floating w), .vfloat bits => decide (bits < 2 ^ (8 * w))
  | some .chars, .vbytes b =>
      decide (b.length = strLenNat f) && b.all (fun x => x < 256)
  | _, _ => false

/-- Pointwise validity of a value list against a field list (implies equal
lengths). -/
def validValues : List StructFieldData → List Value → Bool
  | [], [] => true
  | f :: fs, v :: vs => validValue f v && validValues fs vs
  | _, _ => false

/-! ## The layout compiler (`MetaStruct.__new__`, source lines 110-144) -/

/-- Python dict assignment `d[k] = v` on an insertion-ordered dict: an
existing key keeps its position and gets the new value, a new key is
appended. -/
def dictInsert {α : Type} (d : List (String × α)) (k : String) (v : α) :
    List (String × α) :=
  if d.any (fun p => p.1 = k) then
    d.map (fun p => if p.1 = k then (k, v) else p)
  else d ++ [(k, v)]

/-- One class body ("layer"): the `(attribute, descriptor)` pairs of one
class's `__dict__`, in insertion order.  `MetaStruct.__new__` iterates
`reversed(cls.__mro__)`, so a layer list runs most-base first. -/
abbrev Layer := List (String × StructFieldData)

/-- The MRO walk of source lines 115-119: collect every `StructField` into an
insertion-ordered dict keyed by attribute name; a name redeclared in a later
(more derived) layer replaces the stored descriptor.  Each descriptor's
`name` is the attribute it is bound under (`__set_name__`, source line 62). -/
def collectFields (layers : List Layer) : List (String × StructFieldData) :=
  layers.foldl
    (fun d layer =>
      layer.foldl (fun d p => dictInsert d p.1 { p.2 with name := p.1 }) d)
    []

/-- Stable insertion of a descriptor into a count-sorted list: it goes after
every descriptor with a smaller-or-equal counter. -/
def insertByCount (f : StructFieldData) :
    List StructFieldData → List StructFieldData
  | [] => [f]
  | g :: gs =>
      if f.count < g.count then f :: g :: gs else g :: insertByCount f gs

/-- `sorted(struct_fields.values(), key=lambda f: f.count)`
(source line 125). -/
def sortFields (l : List StructFieldData) : List StructFieldData :=
  l.foldl (fun acc f => insertByCount f acc) []

/-- A compiled record type: the field list in compiled order and the type's
`BYTE_ORDER`.  The format string, packer, name→index map and default-value
list are all derived from these below. -/
structure CompiledStruct where
  fields : List StructFieldData
  byteOrder : Char
deriving DecidableEq, Repr

/-- `MetaStruct.__new__`: collect descriptors across the MRO, dedupe by
attribute name, sort by declaration counter.  The class's `BYTE_ORDER`
(default `'<'`) prefixes the compiled format. -/
def compileStruct (byteOrder : Char) (layers : List Layer) : CompiledStruct :=
  { fields := sortFields ((collectFields layers).map (fun p => p.2)),
    byteOrder := byteOrder }

/-- `_NAME_INDEX_MAP` (source line 135): `name -> index` over the enumerated
compiled field list, with dict update semantics. -/
def nameIndexPairs (fields : List StructFieldData) : List (String × Nat) :=
  fields.enum.foldl (fun d p => dictInsert d p.2.name p.1) []

/-- Look a field name up in `_NAME_INDEX_MAP`. -/
def lookupIndex (cls : CompiledStruct) (name : String) : Option Nat :=
  (nameIndexPairs cls.fields).lookup name

/-- `_DEFAULT_VALUES` (source line 136): the defaults in compiled order. -/
def defaultValues (cls : CompiledStruct) : List Value :=
  cls.fields.map (fun f => f.default)

/-! ## Record operations (`Struct`, source lines 147-194) -/

/-- The per-instance state: the current `values`, plus whether `values` is
currently the tuple produced by `struct.unpack` (source line 184 assigns the
tuple directly) rather than the list created by `__init__`.  Item assignment
on a tuple raises `TypeError`. -/
structure StructState where
  values : List Value
  valuesAreTuple : Bool
deriving DecidableEq, Repr

/-- Remove a key from the kwargs dict (`kwargs.pop(name)`; keys of a Python
kwargs dict are unique, so filtering every match is the same removal). -/
def eraseKey (kwargs : List (String × Value)) (k : String) :
    List (String × Value) :=
  kwargs.filter (fun p => ¬ p.1 = k)

/-- The kwargs-consuming loop of `Struct.__init__` (source lines 164-166):
walk `_NAME_INDEX_MAP` in order; each name present in the remaining kwargs
overwrites `values` at its index and is popped. -/
def initLoop (m : List (String × Nat)) (vals : List Value)
    (kwargs : List (String × Value)) : List Value × List (String × Value) :=
  m.foldl
    (fun acc ni =>
      match acc.2.lookup ni.1 with
      | some v => (acc.1.set ni.2 v, eraseKey acc.2 ni.1)
      | none => acc)
    (vals, kwargs)

/-- The message of the `StructException` raised for leftover kwargs
(source line 169), naming every unconsumed key. -/
def unexpectedKwargsMsg (remaining : List (String × Value)) : String :=
  "Unexpected kwargs " ++ String.intercalate ", " (remaining.map (fun p => p.1))

/-- `Struct.__init__` (source lines 158-169): copy the class defaults into a
fresh values list, consume recognized kwargs, and raise on any leftovers.
(The Python code skips the loop entirely when no kwargs were passed; with an
empty kwargs dict the loop is a no-op, so the embedding runs it
unconditionally.) -/
def Struct.init (cls : CompiledStruct) (kwargs : List (String × Value)) :
    Except PyError StructState :=
  let step := initLoop (nameIndexPairs cls.fields) (defaultValues cls) kwargs
  if step.2 = [] then
    .ok { values := step.1, valuesAreTuple := false }
  else
    .error (.structException (unexpectedKwargsMsg step.2))

/-- `Struct.get_field_value` (source lines 171-172): dict lookup (a missing
name raises `KeyError`), then list/tuple indexing. -/
def get_field_value (cls : CompiledStruct) (s : StructState) (name : String) :
    Except PyError Value :=
  match lookupIndex cls name with
  | none => .error (.keyError name)
  | some i =>
      match s.values.get? i with
      | some v => .ok v
      | none => .error (.indexError "list index out of range")

/-- `Struct.set_field_value` (source lines 174-175): dict lookup (a missing
name raises `KeyError` before any write), then item assignment — which
raises `TypeError` when `values` is the tuple left behind by `unpack`. -/
def set_field_value (cls : CompiledStruct) (s : StructState) (name : String)
    (v : Value) : Except PyError StructState :=
  match lookupIndex cls name with
  | none => .error (.keyError name)
  | some i =>
      if s.valuesAreTuple then
        .error (.typeError "tuple object does not support item assignment")
      else if i < s.values.length then
        .ok { s with values := s.values.set i v }
      else .error (.indexError "list assignment index out of range")

/-- `Struct.pack` (source lines 177-178): `self._PACKER.pack(*self.values)`
with the type's compiled byte order. -/
def Struct.pack (cls : CompiledStruct) (s : StructState) :
    Except PyError (List Nat) :=
  match packFields cls.byteOrder cls.fields s.values with
  | some b => .ok b
  | none => .error (.structError "pack")

/-- `Struct.pack_endian` (source lines 180-181): pack against the base format
qualified by the explicitly supplied byte order. -/
def pack_endian (cls : CompiledStruct) (s : StructState) (byte_order : Char) :
    Except PyError (List Nat) :=
  match packFields byte_order cls.fields s.values with
  | some b => .ok b
  | none => .error (.structError "pack")

/-- `Struct.unpack` (source lines 183-184): `struct.unpack` raises
`struct.error` unless the buffer length equals the compiled size — in which
case nothing was assigned and `values` is untouched; on success the
resulting tuple is assigned to `values` wholesale. -/
def Struct.unpack (cls : CompiledStruct) (s : StructState) (b : List Nat) :
    Except PyError StructState :=
  match unpackFields cls.byteOrder cls.fields b with
  | some vs => .ok { values := vs, valuesAreTuple := true }
  | none => .error (.structError "unpack requires a buffer of matching size")

/-- `Struct.unpack_endian` (source lines 186-188): unpack against the base
format qualified by the explicitly supplied byte order. -/
def unpack_endian (cls : CompiledStruct) (s : StructState) (b : List Nat)
    (byte_order : Char) : Except PyError StructState :=
  match unpackFields byte_order cls.fields b with
  | some vs => .ok { values := vs, valuesAreTuple := true }
  | none => .error (.structError "unpack requires a buffer of matching size")

/-- `Struct.__len__` / `Struct.sizeof` (source lines 190-194):
`self._PACKER.size`, the compiled size under the type's byte order. -/
def Struct.sizeofBytes (cls : CompiledStruct) : Nat :=
  calcSize cls.byteOrder cls.fields

/-- Discriminator for the library's own error class: `True` exactly for
`StructException` (the spec's `ConfigurationError`). -/
def isStructExc : PyError → Bool
  | .structException _ => true
  | _ => false

/-! ## A store model of instance values

`Struct.__init__` runs `self.values = self._DEFAULT_VALUES.copy()` (source
line 160) and `set_field_value` mutates `self.values` in place (source line
175).  To state that instances do not alias the class defaults or each
other, Python list objects are modelled as cells in an explicit store,
addressed by allocation index. -/

/-- A store of Python list objects. -/
structure World where
  cells : List (List Value)
deriving Repr

/-- Allocate a fresh list object holding `vs`; returns its reference. -/
def allocCell (w : World) (vs : List Value) : World × Nat :=
  ({ cells := w.cells ++ [vs] }, w.cells.length)

/-- Dereference a list object (unallocated references read as empty). -/
def readCell (w : World) (r : Nat) : List Value :=
  (w.cells.get? r).getD []

/-- Replace the contents of a list object. -/
def writeCell (w : World) (r : Nat) (vs : List Value) : World :=
  { cells := w.cells.set r vs }

/-- `self.values[i] = v`: in-place mutation of one list object. -/
def setFieldRef (w : World) (r : Nat) (i : Nat) (v : Value) : World :=
  writeCell w r ((readCell w r).set i v)

/-- Construction against the store: allocate a fresh cell holding a copy of
the defaults cell (`self._DEFAULT_VALUES.copy()`), then apply the
construction-time named-value writes to the fresh cell only. -/
def initStructRef (w : World) (defRef : Nat) (updates : List (Nat × Value)) :
    World × Nat :=
  let a := allocCell w (readCell w defRef)
  (updates.foldl (fun wa u => setFieldRef wa a.2 u.1 u.2) a.1, a.2)

/-! ## Concrete record types used as witnesses and counterexamples -/

/-- Descriptor `id = uint32_t(default=0)` with counter 0. -/
def fldId : StructFieldData :=
  { field_type := UINT32_T, default := .vint 0, str_len := none, count := 0,
    name := "" }

/-- Descriptor `flag = uint8_t(default=1)` with counter 1. -/
def fldFlag : StructFieldData :=
  { field_type := UINT8_T, default := .vint 1, str_len := none, count := 1,
    name := "" }

/-- Descriptor `tag = char(4, default=b"none")` with counter 2. -/
def fldTag : StructFieldData :=
  { field_type := CHAR, default := .vbytes [110, 111, 110, 101],
    str_len := some 4, count := 2, name := "" }

/-- The spec's concrete scenario type:
`{id: uint32 default 0, flag: uint8 default 1, tag: fixedBytes(4) default
b"none"}` under the default little-endian order. -/
def cls9 : CompiledStruct :=
  compileStruct DEFAULT_BYTE_ORDER [[("id", fldId), ("flag", fldFlag), ("tag", fldTag)]]

/-- The record state with `{id: 1, flag: 0, tag: b"abcd"}`. -/
def st9 : StructState :=
  { values := [.vint 1, .vint 0, .vbytes [97, 98, 99, 100]],
    valuesAreTuple := false }

/-- Descriptor `a = uint8_t()` with counter 0. -/
def fldA8 : StructFieldData :=
  { field_type := UINT8_T, default := .vint 0, str_len := none, count := 0,
    name := "" }

/-- Descriptor `b = uint32_t()` with counter 1. -/
def fldB32 : StructFieldData :=
  { field_type := UINT32_T, default := .vint 0, str_len := none, count := 1,
    name := "" }

/-- A `{a: uint8, b: uint32}` type compiled under native order `'@'`. -/
def clsNat85 : CompiledStruct :=
  compileStruct BYTE_ORDER_NATIVE [[("a", fldA8), ("b", fldB32)]]

/-- The same `{a: uint8, b: uint32}` type under the default order `'<'`. -/
def clsLit85 : CompiledStruct :=
  compileStruct DEFAULT_BYTE_ORDER [[("a", fldA8), ("b", fldB32)]]

/-- A single-field `{a: uint8}` type under the default order. -/
def clsOne : CompiledStruct :=
  compileStruct DEFAULT_BYTE_ORDER [[("a", fldA8)]]

/-- The state `Struct.__init__` builds for `clsOne` with no kwargs. -/
def stOne : StructState := { values := [.vint 0], valuesAreTuple := false }

/-- Base-class descriptor `a = uint8_t()` with counter 0. -/
def ovA0 : StructFieldData :=
  { field_type := UINT8_T, default := .vint 0, str_len := none, count := 0,
    name := "" }

/-- Base-class descriptor `b = uint8_t()` with counter 1. -/
def ovB1 : StructFieldData :=
  { field_type := UINT8_T, default := .vint 0, str_len := none, count := 1,
    name := "" }

/-- Subclass override `a = uint16_t(default=7)` with counter 2. -/
def ovA2 : StructFieldData :=
  { field_type := UINT16_T, default := .vint 7, str_len := none, count := 2,
    name := "" }

/-- The base class `{a: uint8 (counter 0), b: uint8 (counter 1)}`. -/
def clsOvBase : CompiledStruct :=
  compileStruct DEFAULT_BYTE_ORDER [[("a", ovA0), ("b", ovB1)]]

/-- The subclass that redeclares `a` as `uint16_t(default=7)` (counter 2):
its MRO walk sees the base layer first, then the subclass layer. -/
def clsOvDerived : CompiledStruct :=
  compileStruct DEFAULT_BYTE_ORDER [[("a", ovA0), ("b", ovB1)], [("a", ovA2)]]

/-! ## Word-level encoding lemmas -/

theorem encWordLE_length (w n : Nat) : (encWordLE w n).length = w := by
  induction w generalizing n with
  | zero => rfl
  | succ w ih => simp [encWordLE, ih]

theorem pow256_eq (w : Nat) : (256 : Nat) ^ w = 2 ^ (8 * w) := by
  have h : (256 : Nat) = 2 ^ 8 := by norm_num
  rw [h, ← pow_mul]

theorem decWordLE_encWordLE (w n : Nat) :
    decWordLE (encWordLE w n) = n % 256 ^ w := by
  induction w generalizing n with
  | zero => simp [encWordLE, decWordLE, Nat.mod_one]
  | succ w ih =>
      have : (256 : Nat) ^ (w + 1) = 256 * 256 ^ w := by ring
      rw [this, Nat.mod_mul]
      simp [encWordLE, decWordLE, ih]

theorem decWordLE_encWordLE_of_lt {w n : Nat} (h : n < 2 ^ (8 * w)) :
    decWordLE (encWordLE w n) = n := by
  rw [decWordLE_encWordLE, pow256_eq, Nat.mod_eq_of_lt h]

theorem encWord_length (bo : Char) (w n : Nat) : (encWord bo w n).length = w := by
  unfold encWord
  by_cases h : isBigEndian bo <;> simp [h, encWordLE_length]

theorem decWord_encWord (bo : Char) {w n : Nat} (h : n < 2 ^ (8 * w)) :
    decWord bo (encWord bo w n) = n := by
  unfold encWord decWord
  by_cases hb : isBigEndian bo <;>
    simp [hb, List.reverse_reverse, decWordLE_encWordLE_of_lt h]

/-! ## Field-level encoding lemmas -/

theorem kindOf_width_pos {c : Char} {k : FieldKind} (hk : kindOf c = some k) :
    match k with
    | .signed w => 0 < w
    | .unsigned w => 0 < w
    | .floating w => 0 < w
    | .chars => True := by
  unfold kindOf at hk
  split at hk <;> cases hk <;> simp

theorem map_mod256_of_lt {b : List Nat} (h : b.all (fun x => x < 256) = true) :
    b.map (fun x => x % 256) = b := by
  induction b with
  | nil => rfl
  | cons x xs ih =>
      simp only [List.all_cons, Bool.and_eq_true, decide_eq_true_eq] at h
      simp [Nat.mod_eq_of_lt h.1, ih h.2]

/-- The two's-complement reading of the encoded residue recovers a signed
integer in range. -/
theorem signed_decode_encode (bo : Char) {w : Nat} (hw : 0 < w) {i : Int}
    (h1 : -(2 ^ (8 * w - 1) : Int) ≤ i) (h2 : i < (2 ^ (8 * w - 1) : Int)) :
    (if 2 ^ (8 * w - 1) ≤ decWord bo (encWord bo w (i % (2 ^ (8 * w) : Int)).toNat)
     then ((decWord bo (encWord bo w (i % (2 ^ (8 * w) : Int)).toNat) : Int)
       - (2 ^ (8 * w) : Int))
     else (decWord bo (encWord bo w (i % (2 ^ (8 * w) : Int)).toNat) : Int)) = i := by
  have hsplit : 8 * w = (8 * w - 1) + 1 := by omega
  have hM2 : (2 ^ (8 * w) : Int) = 2 * 2 ^ (8 * w - 1) := by
    conv_lhs => rw [hsplit]
    rw [pow_succ, mul_comm]
  have hHpos : (0 : Int) < 2 ^ (8 * w - 1) := by positivity
  have hMpos : (0 : Int) < 2 ^ (8 * w) := by positivity
  have hpowc : (((2 ^ (8 * w) : Nat) : Int)) = (2 ^ (8 * w) : Int) := by push_cast; ring
  have hpowc1 : (((2 ^ (8 * w - 1) : Nat) : Int)) = (2 ^ (8 * w - 1) : Int) := by
    push_cast; ring
  have hmod0 : 0 ≤ i % (2 ^ (8 * w) : Int) := Int.emod_nonneg i (by omega)
  have hmod1 : i % (2 ^ (8 * w) : Int) < 2 ^ (8 * w) := Int.emod_lt_of_pos i hMpos
  have hcast : ((i % (2 ^ (8 * w) : Int)).toNat : Int) = i % (2 ^ (8 * w) : Int) :=
    Int.toNat_of_nonneg hmod0
  have hlt : (i % (2 ^ (8 * w) : Int)).toNat < 2 ^ (8 * w) := by omega
  rw [decWord_encWord bo hlt]
  have hval : i % (2 ^ (8 * w) : Int) = if 0 ≤ i then i else i + 2 ^ (8 * w) := by
    by_cases hi : 0 ≤ i
    · simp only [hi, if_true]
      exact Int.emod_eq_of_lt hi (by omega)
    · simp only [hi, if_false]
      have h' : (i + 2 ^ (8 * w)) % (2 ^ (8 * w) : Int) = i % (2 ^ (8 * w) : Int) := by
        have := Int.add_mul_emod_self_left (a := i) (b := (2 ^ (8 * w) : Int)) (c := 1)
        simpa using this
      rw [← h']
      exact Int.emod_eq_of_lt (by omega) (by omega)
  by_cases hi : 0 ≤ i
  · rw [hval, if_pos hi] at hcast
    have hcond : ¬ (2 ^ (8 * w - 1) : Nat) ≤ (i % (2 ^ (8 * w) : Int)).toNat := by
      omega
    rw [if_neg hcond]
    omega
  · rw [hval, if_neg hi] at hcast
    have hcond : (2 ^ (8 * w - 1) : Nat) ≤ (i % (2 ^ (8 * w) : Int)).toNat := by
      omega
    rw [if_pos hcond]
    omega

/-- A valid value encodes to exactly `fieldSize` bytes, and decoding those
bytes recovers the value. -/
theorem decodeField_encodeField (bo : Char) (f : StructFieldData) (v : Value)
    (hv : validValue f v = true) :
    ∃ e, encodeField bo f v = some e ∧ e.length = fieldSize f ∧
      decodeField bo f e = v := by
  unfold validValue at hv
  cases hk : kindOf f.field_type with
  | none => rw [hk] at hv; cases v <;> simp at hv
  | some k =>
    rw [hk] at hv
    have hkw := kindOf_width_pos hk
    cases k with
    | signed w =>
        have hw : 0 < w := by simpa using hkw
        cases v
        case vbytes b => simp at hv
        case vfloat bits => simp at hv
        case vnone => simp at hv
        case vint i =>
          simp only [Bool.and_eq_true, decide_eq_true_eq] at hv
          obtain ⟨h1, h2⟩ := hv
          have henc : encodeField bo f (Value.vint i) =
              some (encWord bo w (i % (2 ^ (8 * w) : Int)).toNat) := by
            unfold encodeField
            rw [hk]
            simp only []
            rw [if_pos ⟨h1, h2⟩]
          refine ⟨_, henc, ?_, ?_⟩
          · simp [encWord_length, fieldSize, hk]
          · unfold decodeField
            rw [hk]
            simp only []
            rw [signed_decode_encode bo hw h1 h2]
    | unsigned w =>
        cases v
        case vbytes b => simp at hv
        case vfloat bits => simp at hv
        case vnone => simp at hv
        case vint i =>
          simp only [Bool.and_eq_true, decide_eq_true_eq] at hv
          obtain ⟨h1, h2⟩ := hv
          have hlt : i.toNat < 2 ^ (8 * w) := by
            have hc : (((2 ^ (8 * w) : Nat) : Int)) = (2 ^ (8 * w) : Int) := by
              push_cast; ring
            omega
          have henc : encodeField bo f (Value.vint i) =
              some (encWord bo w i.toNat) := by
            unfold encodeField
            rw [hk]
            simp only []
            rw [if_pos ⟨h1, h2⟩]
          refine ⟨_, henc, ?_, ?_⟩
          · simp [encWord_length, fieldSize, hk]
          · unfold decodeField
            rw [hk]
            simp only []
            rw [decWord_encWord bo hlt]
            congr 1
            omega
    | floating w =>
        cases v
        case vint i => simp at hv
        case vbytes b => simp at hv
        case vnone => simp at hv
        case vfloat bits =>
          simp only [decide_eq_true_eq] at hv
          have henc : encodeField bo f (Value.vfloat bits) =
              some (encWord bo w bits) := by
            unfold encodeField
            rw [hk]
            simp only []
            rw [if_pos hv]
          refine ⟨_, henc, ?_, ?_⟩
          · simp [encWord_length, fieldSize, hk]
          · unfold decodeField
            rw [hk]
            simp only []
            rw [decWord_encWord bo hv]
    | chars =>
        cases v
        case vint i => simp at hv
        case vfloat bits => simp at hv
        case vnone => simp at hv
        case vbytes b =>
          simp only [Bool.and_eq_true, decide_eq_true_eq] at hv
          obtain ⟨h1, h2⟩ := hv
          have henc : encodeField bo f (Value.vbytes b) =
              some (List.take (strLenNat f)
                (b.map (fun x => x % 256) ++ List.replicate (strLenNat f) 0)) := by
            unfold encodeField
            rw [hk]
          refine ⟨_, henc, ?_, ?_⟩
          · simp only [List.length_take, List.length_append, List.length_map,
              List.length_replicate, h1]
            simp [fieldSize, hk]
          · unfold decodeField
            rw [hk]
            rw [map_mod256_of_lt h2]
            have htake : List.take (strLenNat f)
                (b ++ List.replicate (strLenNat f) 0) = b := by
              rw [← h1, List.take_left]
            rw [htake]

/-- Whenever a field encodes at all, the encoding has exactly `fieldSize`
bytes (validity is not needed: out-of-range values simply fail). -/
theorem encodeField_length {bo : Char} {f : StructFieldData} {v : Value}
    {e : List Nat} (h : encodeField bo f v = some e) : e.length = fieldSize f := by
  unfold encodeField at h
  split at h
  · split at h
    · cases h
      simp_all [encWord_length, fieldSize]
    · cases h
  · split at h
    · cases h
      simp_all [encWord_length, fieldSize]
    · cases h
  · split at h
    · cases h
      simp_all [encWord_length, fieldSize]
    · cases h
  · cases h
    simp_all [fieldSize]
  · cases h

/-! ## List-level packing lemmas -/

/-- Packing a cons against a cons: the shape of `packFieldsAux` on success. -/
theorem packFieldsAux_cons (bo : Char) (f : StructFieldData)
    (fs : List StructFieldData) (v : Value) (vs : List Value) (off : Nat) :
    packFieldsAux bo (f :: fs) (v :: vs) off =
      match encodeField bo f v,
        packFieldsAux bo fs vs (off + padAt bo f off + fieldSize f) with
      | some e, some rest => some (List.replicate (padAt bo f off) 0 ++ e ++ rest)
      | _, _ => none := rfl

/-- A successful `packFieldsAux` produces exactly `calcSizeAux` bytes. -/
theorem packFieldsAux_length (bo : Char) (fs : List StructFieldData) :
    ∀ (vs : List Value) (off : Nat) (b : List Nat),
      packFieldsAux bo fs vs off = some b → b.length = calcSizeAux bo fs off := by
  induction fs with
  | nil =>
      intro vs off b h
      cases vs with
      | nil => cases h; rfl
      | cons v vs' => cases h
  | cons f fs ih =>
      intro vs off b h
      cases vs with
      | nil => cases h
      | cons v vs' =>
          rw [packFieldsAux_cons] at h
          cases he : encodeField bo f v with
          | none => rw [he] at h; cases h
          | some e =>
              cases hr : packFieldsAux bo fs vs' (off + padAt bo f off + fieldSize f) with
              | none => rw [he, hr] at h; cases h
              | some rest =>
                  rw [he, hr] at h
                  cases h
                  have h1 := encodeField_length he
                  have h2 := ih vs' (off + padAt bo f off + fieldSize f) rest hr
                  simp only [List.length_append, List.length_replicate, h1, h2,
                    calcSizeAux]

/-- Valid values pack successfully, to exactly `calcSizeAux` bytes, and
field-by-field decoding of those bytes recovers the values. -/
theorem packFieldsAux_roundtrip (bo : Char) (fs : List StructFieldData) :
    ∀ (vs : List Value) (off : Nat), validValues fs vs = true →
      ∃ b, packFieldsAux bo fs vs off = some b ∧
        b.length = calcSizeAux bo fs off ∧
        decodeFieldsAux bo fs b off = vs := by
  induction fs with
  | nil =>
      intro vs off hv
      cases vs with
      | nil => exact ⟨[], rfl, rfl, rfl⟩
      | cons v vs' => simp [validValues] at hv
  | cons f fs ih =>
      intro vs off hv
      cases vs with
      | nil => simp [validValues] at hv
      | cons v vs' =>
          simp only [validValues, Bool.and_eq_true] at hv
          obtain ⟨hv1, hv2⟩ := hv
          obtain ⟨e, he, helen, hdec⟩ := decodeField_encodeField bo f v hv1
          obtain ⟨rest, hrest, hrlen, hrdec⟩ :=
            ih vs' (off + padAt bo f off + fieldSize f) hv2
          refine ⟨List.replicate (padAt bo f off) 0 ++ e ++ rest, ?_, ?_, ?_⟩
          · rw [packFieldsAux_cons, he, hrest]
          · simp only [List.length_append, List.length_replicate, helen, hrlen,
              calcSizeAux]
          · have hdrop1 : (List.replicate (padAt bo f off) 0 ++ e ++ rest).drop
                (padAt bo f off) = e ++ rest := by
              rw [List.append_assoc]
              exact List.drop_left' (List.length_replicate _ _)
            have htake : (e ++ rest).take (fieldSize f) = e :=
              List.take_left' helen
            have hdrop2 : (List.replicate (padAt bo f off) 0 ++ e ++ rest).drop
                (padAt bo f off + fieldSize f) = rest := by
              refine List.drop_left' ?_
              simp [List.length_append, List.length_replicate, helen]
            simp only [decodeFieldsAux, hdrop1, htake, hdec, hdrop2, hrdec]

/-- `struct.pack` on valid values succeeds and `struct.unpack` inverts it. -/
theorem packFields_unpackFields (bo : Char) (fs : List StructFieldData)
    (vs : List Value) (hv : validValues fs vs = true) :
    ∃ b, packFields bo fs vs = some b ∧ b.length = calcSize bo fs ∧
      unpackFields bo fs b = some vs := by
  obtain ⟨b, hb, hlen, hdec⟩ := packFieldsAux_roundtrip bo fs vs 0 hv
  refine ⟨b, hb, hlen, ?_⟩
  unfold unpackFields calcSize
  rw [if_pos hlen]
  rw [hdec]

/-- Under the standard (non-native) byte-order modes no padding is inserted,
so the packed size is the plain sum of the declared field widths. -/
theorem calcSizeAux_eq_sumWidths {bo : Char} (h : bo ≠ BYTE_ORDER_NATIVE)
    (fs : List StructFieldData) : ∀ off, calcSizeAux bo fs off = sumWidths fs := by
  induction fs with
  | nil => intro off; rfl
  | cons f fs ih =>
      intro off
      have hpad : padAt bo f off = 0 := by
        unfold padAt
        rw [if_neg h]
      simp only [calcSizeAux, hpad, sumWidths, List.map_cons, List.sum_cons]
      rw [ih]
      unfold sumWidths
      omega

/-! ## Claim C1: the pack/unpack round-trip law -/

/-- C1: for every record type, every supported byte order, and every record
whose field values are valid for their declared primitive types and widths,
`unpack (pack r)` — and likewise `unpack_endian (pack_endian r o) o` for any
supported order `o` — succeeds and yields field values equal, field by
field, to the record's values before packing. -/
theorem c1_round_trip (cls : CompiledStruct) (s : StructState) (o : Char)
    (hv : validValues cls.fields s.values = true)
    (hbo : validByteOrder cls.byteOrder = true)
    (ho : validByteOrder o = true) :
    (∃ b s', Struct.pack cls s = .ok b ∧ Struct.unpack cls s b = .ok s' ∧
      s'.values = s.values) ∧
    (∃ b s', pack_endian cls s o = .ok b ∧ unpack_endian cls s b o = .ok s' ∧
      s'.values = s.values) := by
  constructor
  · obtain ⟨b, hb, hlen, hu⟩ :=
      packFields_unpackFields cls.byteOrder cls.fields s.values hv
    refine ⟨b, { values := s.values, valuesAreTuple := true }, ?_, ?_, rfl⟩
    · unfold Struct.pack
      rw [hb]
    · unfold Struct.unpack
      rw [hu]
  · obtain ⟨b, hb, hlen, hu⟩ := packFields_unpackFields o cls.fields s.values hv
    refine ⟨b, { values := s.values, valuesAreTuple := true }, ?_, ?_, rfl⟩
    · unfold pack_endian
      rw [hb]
    · unfold unpack_endian
      rw [hu]

/-- Witness for C1 at the spec's concrete record type and values, with the
explicit big-endian override path exercised alongside the default order. -/
theorem c1_round_trip_witness :
    (∃ b s', Struct.pack cls9 st9 = .ok b ∧ Struct.unpack cls9 st9 b = .ok s' ∧
      s'.values = st9.values) ∧
    (∃ b s', pack_endian cls9 st9 BYTE_ORDER_BIG_ENDIAN = .ok b ∧
      unpack_endian cls9 st9 b BYTE_ORDER_BIG_ENDIAN = .ok s' ∧
      s'.values = st9.values) :=
  c1_round_trip cls9 st9 BYTE_ORDER_BIG_ENDIAN (by decide) (by decide) (by decide)

/-! ## Claim C3: the unpack length precondition -/

/-- C3 (amended): `unpack` raises `struct.error` (the spec's `PackingError`)
exactly when the buffer length differs from the record's compiled size, and
on success replaces `values` wholesale, in position order, with the decoded
fields; `unpack_endian`, however, checks the buffer against the size of the
byte-order-qualified *base* format — which under the native-alignment mode
can differ from `r.Size()` — and on success decodes by the supplied order.
An error raises before the assignment to `self.values`, so the record state
is unmodified (the embedding returns no new state on error). -/
theorem c3_unpack_size_check (cls : CompiledStruct) (s : StructState)
    (b : List Nat) (o : Char) :
    (b.length ≠ Struct.sizeofBytes cls →
      Struct.unpack cls s b =
        .error (.structError "unpack requires a buffer of matching size")) ∧
    (b.length ≠ calcSize o cls.fields →
      unpack_endian cls s b o =
        .error (.structError "unpack requires a buffer of matching size")) ∧
    (∀ s', Struct.unpack cls s b = .ok s' →
      b.length = Struct.sizeofBytes cls ∧
      s' = { values := decodeFieldsAux cls.byteOrder cls.fields b 0,
             valuesAreTuple := true }) ∧
    (∀ s', unpack_endian cls s b o = .ok s' →
      b.length = calcSize o cls.fields ∧
      s' = { values := decodeFieldsAux o cls.fields b 0,
             valuesAreTuple := true }) := by
  refine ⟨?_, ?_, ?_, ?_⟩
  · intro h
    unfold Struct.sizeofBytes at h
    unfold Struct.unpack unpackFields
    rw [if_neg h]
  · intro h
    unfold unpack_endian unpackFields
    rw [if_neg h]
  · intro s' h
    unfold Struct.unpack unpackFields at h
    by_cases hl : b.length = calcSize cls.byteOrder cls.fields
    · rw [if_pos hl] at h
      cases h
      exact ⟨hl, rfl⟩
    · rw [if_neg hl] at h
      cases h
  · intro s' h
    unfold unpack_endian unpackFields at h
    by_cases hl : b.length = calcSize o cls.fields
    · rw [if_pos hl] at h
      cases h
      exact ⟨hl, rfl⟩
    · rw [if_neg hl] at h
      cases h

/-- Witness for C3: a 1-byte buffer against the 9-byte record raises. -/
theorem c3_unpack_size_check_witness :
    Struct.unpack cls9 st9 [0] =
      .error (.structError "unpack requires a buffer of matching size") :=
  (c3_unpack_size_check cls9 st9 [0] BYTE_ORDER_BIG_ENDIAN).1 (by decide)

/-- Counterexample to C3 as stated: for the `{a: uint8, b: uint32}` type
compiled under the default order, `r.Size()` is 5, yet
`unpack_endian(b, '@')` on an 8-byte buffer succeeds, because the length
precondition of the endian-override path is the size of the base format
under the supplied (native, padded) order, not `r.Size()`. -/
theorem c3_override_size_cex :
    (List.replicate 8 0).length ≠ Struct.sizeofBytes clsLit85 ∧
    validByteOrder BYTE_ORDER_NATIVE = true ∧
    unpack_endian clsLit85
      { values := [.vint 0, .vint 0], valuesAreTuple := false }
      (List.replicate 8 0) BYTE_ORDER_NATIVE =
      .ok { values := [.vint 0, .vint 0], valuesAreTuple := true } := by
  refine ⟨by decide, by decide, rfl⟩

/-! ## Claim C6: the size invariant -/

/-- C6 (amended): every successful `pack` yields exactly `r.Size()` bytes
(for any values), and under the four standard byte-order modes — but not
necessarily under native `'@'` mode, which inserts platform alignment
padding — that size equals the sum of the declared field widths,
independent of the field values. -/
theorem c6_size_invariant (cls : CompiledStruct) (s : StructState) :
    (∀ b, Struct.pack cls s = .ok b → b.length = Struct.sizeofBytes cls) ∧
    (cls.byteOrder ≠ BYTE_ORDER_NATIVE →
      Struct.sizeofBytes cls = sumWidths cls.fields) := by
  constructor
  · intro b hb
    unfold Struct.pack at hb
    cases hp : packFields cls.byteOrder cls.fields s.values with
    | none => rw [hp] at hb; cases hb
    | some b' =>
        rw [hp] at hb
        cases hb
        exact packFieldsAux_length cls.byteOrder cls.fields s.values 0 _ hp
  · intro h
    unfold Struct.sizeofBytes calcSize
    exact calcSizeAux_eq_sumWidths h cls.fields 0

/-- Witness for C6 at the spec's concrete little-endian record type:
9 packed bytes, equal to the sum of widths 4 + 1 + 4. -/
theorem c6_size_invariant_witness :
    (∃ b, Struct.pack cls9 st9 = .ok b ∧ b.length = Struct.sizeofBytes cls9) ∧
    Struct.sizeofBytes cls9 = sumWidths cls9.fields := by
  refine ⟨⟨_, rfl, (c6_size_invariant cls9 st9).1 _ rfl⟩,
    (c6_size_invariant cls9 st9).2 (by decide)⟩

/-- Counterexample to C6 as stated: under the native-alignment mode `'@'`
the `{a: uint8, b: uint32}` type packs to 8 bytes (3 alignment pad bytes
before the uint32), not the 5-byte sum of the declared widths. -/
theorem c6_native_alignment_cex :
    Struct.sizeofBytes clsNat85 ≠ sumWidths clsNat85.fields ∧
    Struct.sizeofBytes clsNat85 = 8 ∧ sumWidths clsNat85.fields = 5 ∧
    Struct.pack clsNat85
      { values := [.vint 1, .vint 2], valuesAreTuple := false } =
      .ok [1, 0, 0, 0, 2, 0, 0, 0] := by
  refine ⟨by decide, by decide, by decide, rfl⟩

/-! ## Claim C4: unknown field names in Get/Set -/

/-- C4 (amended): `get_field_value` and `set_field_value` with a name that
is not in the compiled layout both fail — but with Python's builtin
`KeyError` from the `_NAME_INDEX_MAP` dict lookup, not with the library's
`StructException` (the spec's `ConfigurationError`).  The lookup raises
before any write, so a failed set leaves the record state unmodified (the
embedding returns no new state on error). -/
theorem c4_unknown_field (cls : CompiledStruct) (s : StructState)
    (name : String) (v : Value) (h : lookupIndex cls name = none) :
    get_field_value cls s name = .error (.keyError name) ∧
    set_field_value cls s name v = .error (.keyError name) ∧
    isStructExc (.keyError name) = false := by
  refine ⟨?_, ?_, rfl⟩
  · unfold get_field_value
    rw [h]
  · unfold set_field_value
    rw [h]

/-- Witness for C4: `"missing"` is not a field of the concrete type. -/
theorem c4_unknown_field_witness :
    get_field_value cls9 st9 "missing" = .error (.keyError "missing") ∧
    set_field_value cls9 st9 "missing" (.vint 0) =
      .error (.keyError "missing") ∧
    isStructExc (.keyError "missing") = false :=
  c4_unknown_field cls9 st9 "missing" (.vint 0) (by decide)

/-- Counterexample to C4 as stated: the error raised for an unknown field is
a `KeyError`, which is not the library's `StructException`/configuration
error type. -/
theorem c4_unknown_field_cex :
    get_field_value cls9 st9 "bogus" = .error (.keyError "bogus") ∧
    set_field_value cls9 st9 "bogus" (.vint 1) = .error (.keyError "bogus") ∧
    isStructExc (.keyError "bogus") = false := ⟨rfl, rfl, rfl⟩

/-! ## Claim C5: set after unpack -/

/-- C5: the code contradicts the claim (and its own `self.values: list`
annotation).  For the one-field type: construction yields a mutable list
state and `set_field_value` works on it; after a successful `unpack`,
`values` holds the tuple returned by `struct.unpack`, so the very same
`set_field_value` call raises `TypeError` even though `get_field_value`
still reads the unpacked value. -/
theorem c5_set_after_unpack_raises :
    Struct.init clsOne [] = .ok stOne ∧
    set_field_value clsOne stOne "a" (.vint 5) =
      .ok { values := [.vint 5], valuesAreTuple := false } ∧
    Struct.unpack clsOne stOne [7] =
      .ok { values := [.vint 7], valuesAreTuple := true } ∧
    get_field_value clsOne { values := [.vint 7], valuesAreTuple := true } "a" =
      .ok (.vint 7) ∧
    set_field_value clsOne { values := [.vint 7], valuesAreTuple := true } "a"
      (.vint 5) =
      .error (.typeError "tuple object does not support item assignment") := by
  refine ⟨rfl, rfl, rfl, rfl, rfl⟩

/-! ## Claim C7: descriptor-construction validation -/

/-- C7 (amended): `StructField.__init__` fails (with the library's
`StructException`) exactly for a CHAR field whose `str_len` is omitted or
zero — Python's falsiness test `not str_len` — so a *negative* length is
accepted at descriptor-construction time, and every non-CHAR descriptor
construction succeeds. -/
theorem c7_char_strlen_validation (ft : Char) (d : Value) (sl : Option Int)
    (c : Nat) :
    (∃ e, mkStructField ft d sl c = .error e) ↔
      ft = CHAR ∧ (sl = none ∨ sl = some 0) := by
  constructor
  · rintro ⟨e, he⟩
    unfold mkStructField at he
    split at he
    · rename_i hcond
      simp only [Bool.and_eq_true, decide_eq_true_eq] at hcond
      obtain ⟨h1, h2⟩ := hcond
      refine ⟨h1, ?_⟩
      cases sl with
      | none => exact Or.inl rfl
      | some n =>
          right
          simp only [falsyLen, decide_eq_true_eq] at h2
          rw [h2]
    · cases he
  · rintro ⟨h1, h2⟩
    subst h1
    rcases h2 with h2 | h2 <;> subst h2 <;> exact ⟨_, rfl⟩

/-- Witness for C7: a CHAR descriptor with `str_len = 0` is rejected. -/
theorem c7_char_strlen_validation_witness :
    ∃ e, mkStructField CHAR .vnone (some 0) 3 = .error e :=
  (c7_char_strlen_validation CHAR .vnone (some 0) 3).mpr ⟨rfl, Or.inr rfl⟩

/-- Counterexample to C7 as stated: a CHAR descriptor with the *negative*
length `-1` is happily constructed (both through `StructField.__init__` and
through the `char` helper), because Python's `not str_len` is false for
`-1`; the claim demands a `ConfigurationError` for every non-positive
length. -/
theorem c7_negative_strlen_cex :
    mkStructField CHAR .vnone (some (-1)) 0 =
      .ok { field_type := CHAR, default := .vnone, str_len := some (-1),
            count := 0, name := "" } ∧
    char (-1) .vnone 0 =
      .ok { field_type := CHAR, default := .vnone, str_len := some (-1),
            count := 0, name := "" } := ⟨rfl, rfl⟩

/-! ## Claim C9: the concrete little-endian scenario -/

/-- C9: the record type `{id: uint32 default 0, flag: uint8 default 1,
tag: fixedBytes(4) default b"none"}` under little-endian order, holding
`{id: 1, flag: 0, tag: b"abcd"}`, packs to exactly the 9 bytes
`01 00 00 00 | 00 | 61 62 63 64`, and unpacking that exact sequence
reproduces the same field values. -/
theorem c9_concrete_scenario :
    Struct.init cls9
      [("id", .vint 1), ("flag", .vint 0), ("tag", .vbytes [97, 98, 99, 100])]
      = .ok st9 ∧
    Struct.pack cls9 st9 = .ok [1, 0, 0, 0, 0, 97, 98, 99, 100] ∧
    Struct.unpack cls9 st9 [1, 0, 0, 0, 0, 97, 98, 99, 100] =
      .ok { values := [.vint 1, .vint 0, .vbytes [97, 98, 99, 100]],
            valuesAreTuple := true } ∧
    Struct.sizeofBytes cls9 = 9 := by
  refine ⟨rfl, rfl, rfl, rfl⟩

/-! ## Claim C2: override-by-name in the inheritance walk -/

/-- C2 (amended): when a derived type redeclares a field name, the compiled
layout keeps exactly one slot for that name and uses the overriding
descriptor's definition — but the slot is ordered by the *overriding*
descriptor's declaration counter, so the field moves to the position its
redeclaration implies.  Generic two-class scenario: a base declaring
`a` (counter `d0`) then `b` (counter `d1`), and a subclass redeclaring
`a` (counter `d2`): the base compiles to `[a, b]`, the subclass to
`[b, a]` with `a` carrying the overriding descriptor's data. -/
theorem c2_override_reorders (d0 d1 d2 : StructFieldData) (bo : Char)
    (h01 : d0.count < d1.count) (h12 : d1.count < d2.count) :
    (compileStruct bo [[("a", d0), ("b", d1)]]).fields =
      [{ d0 with name := "a" }, { d1 with name := "b" }] ∧
    (compileStruct bo [[("a", d0), ("b", d1)], [("a", d2)]]).fields =
      [{ d1 with name := "b" }, { d2 with name := "a" }] := by
  constructor
  · show insertByCount { d1 with name := "b" } [{ d0 with name := "a" }] = _
    unfold insertByCount
    rw [if_neg (Nat.lt_asymm h01)]
    rfl
  · show insertByCount { d1 with name := "b" } [{ d2 with name := "a" }] = _
    unfold insertByCount
    rw [if_pos h12]

/-- Witness for C2 at the concrete descriptors with counters 0, 1, 2. -/
theorem c2_override_reorders_witness :
    (compileStruct DEFAULT_BYTE_ORDER [[("a", ovA0), ("b", ovB1)]]).fields =
      [{ ovA0 with name := "a" }, { ovB1 with name := "b" }] ∧
    (compileStruct DEFAULT_BYTE_ORDER
        [[("a", ovA0), ("b", ovB1)], [("a", ovA2)]]).fields =
      [{ ovB1 with name := "b" }, { ovA2 with name := "a" }] :=
  c2_override_reorders ovA0 ovB1 ovA2 DEFAULT_BYTE_ORDER (by decide) (by decide)

/-- Counterexample to C2 as stated: in the base type `a` sits at position 0,
before `b`; after the subclass redeclares `a`, the compiled layout is
`[b, a]` — the redeclared field did *not* keep its original
declaration-order position (it moved behind `b`), though it does keep one
slot bound to the overriding descriptor's definition. -/
theorem c2_override_position_cex :
    lookupIndex clsOvBase "a" = some 0 ∧
    lookupIndex clsOvDerived "a" = some 1 ∧
    clsOvBase.fields.map (fun f => f.name) = ["a", "b"] ∧
    clsOvDerived.fields.map (fun f => f.name) = ["b", "a"] ∧
    clsOvDerived.fields.get? 1 = some { ovA2 with name := "a" } := by
  refine ⟨rfl, rfl, rfl, rfl, rfl⟩

/-! ## Store-model lemmas for instance independence -/

theorem readCell_writeCell_ne (w : World) (r r' : Nat) (vs : List Value)
    (h : r' ≠ r) : readCell (writeCell w r vs) r' = readCell w r' := by
  unfold readCell writeCell
  rw [List.get?_set_ne _ _ (Ne.symm h)]

theorem writeCell_length (w : World) (r : Nat) (vs : List Value) :
    (writeCell w r vs).cells.length = w.cells.length := by
  simp [writeCell]

theorem setFieldRef_ne (w : World) (r r' i : Nat) (v : Value) (h : r' ≠ r) :
    readCell (setFieldRef w r i v) r' = readCell w r' :=
  readCell_writeCell_ne w r r' _ h

theorem setFieldRef_length (w : World) (r i : Nat) (v : Value) :
    (setFieldRef w r i v).cells.length = w.cells.length :=
  writeCell_length w r _

theorem foldl_setFieldRef_ne (updates : List (Nat × Value)) (w : World)
    (r r' : Nat) (h : r' ≠ r) :
    readCell (updates.foldl (fun wa u => setFieldRef wa r u.1 u.2) w) r' =
      readCell w r' := by
  induction updates generalizing w with
  | nil => rfl
  | cons u us ih =>
      rw [List.foldl_cons, ih, setFieldRef_ne _ _ _ _ _ h]

theorem foldl_setFieldRef_length (updates : List (Nat × Value)) (w : World)
    (r : Nat) :
    (updates.foldl (fun wa u => setFieldRef wa r u.1 u.2) w).cells.length =
      w.cells.length := by
  induction updates generalizing w with
  | nil => rfl
  | cons u us ih =>
      rw [List.foldl_cons, ih, setFieldRef_length]

theorem readCell_allocCell_ne (w : World) (vs : List Value) (r' : Nat)
    (h : r' ≠ w.cells.length) :
    readCell (allocCell w vs).1 r' = readCell w r' := by
  unfold readCell allocCell
  by_cases hlt : r' < w.cells.length
  · rw [List.get?_append hlt]
  · have h1 : w.cells.get? r' = none := List.get?_eq_none.mpr (by omega)
    have h2 : (w.cells ++ [vs]).get? r' = none := by
      refine List.get?_eq_none.mpr ?_
      simp only [List.length_append, List.length_cons, List.length_nil]
      omega
    rw [h1, h2]

theorem readCell_allocCell_self (w : World) (vs : List Value) :
    readCell (allocCell w vs).1 (allocCell w vs).2 = vs := by
  unfold readCell allocCell
  rw [List.get?_concat_length]
  rfl

theorem initStructRef_ref (w : World) (defRef : Nat)
    (updates : List (Nat × Value)) :
    (initStructRef w defRef updates).2 = w.cells.length := rfl

theorem initStructRef_length (w : World) (defRef : Nat)
    (updates : List (Nat × Value)) :
    (initStructRef w defRef updates).1.cells.length = w.cells.length + 1 := by
  unfold initStructRef
  rw [foldl_setFieldRef_length]
  simp [allocCell]

theorem initStructRef_read_ne (w : World) (defRef : Nat)
    (updates : List (Nat × Value)) (r' : Nat) (h : r' ≠ w.cells.length) :
    readCell (initStructRef w defRef updates).1 r' = readCell w r' := by
  exact (foldl_setFieldRef_ne updates _ _ r' h).trans
    (readCell_allocCell_ne w _ r' h)

/-! ## Claim C10: record instances are value-independent -/

/-- C10: `Struct.__init__` copies `_DEFAULT_VALUES` into a freshly allocated
list (`.copy()`), so in the store model: a no-kwargs construction reads back
exactly the class defaults; constructing a record (with any named-value
writes `u1`, `u2`) never changes the defaults cell; constructing a second
record changes neither the defaults nor the first record's cell; and an
in-place `set_field_value` on the second record leaves both the class
defaults and the first record's values untouched. -/
theorem c10_instance_independence (w : World) (defRef : Nat)
    (hdef : defRef < w.cells.length) (u1 u2 : List (Nat × Value))
    (i : Nat) (v : Value) :
    let p1 := initStructRef w defRef u1
    let p2 := initStructRef p1.1 defRef u2
    let w3 := setFieldRef p2.1 p2.2 i v
    readCell (initStructRef w defRef []).1 (initStructRef w defRef []).2 =
      readCell w defRef ∧
    readCell p1.1 defRef = readCell w defRef ∧
    readCell p2.1 defRef = readCell w defRef ∧
    readCell p2.1 p1.2 = readCell p1.1 p1.2 ∧
    readCell w3 defRef = readCell w defRef ∧
    readCell w3 p1.2 = readCell p1.1 p1.2 := by
  intro p1 p2 w3
  have hr1 : p1.2 = w.cells.length := initStructRef_ref w defRef u1
  have hl1 : p1.1.cells.length = w.cells.length + 1 :=
    initStructRef_length w defRef u1
  have hr2 : p2.2 = w.cells.length + 1 := by
    have := initStructRef_ref p1.1 defRef u2
    rw [this, hl1]
  have hne1 : defRef ≠ w.cells.length := by omega
  have hne2 : defRef ≠ p1.1.cells.length := by omega
  have h2 : readCell p1.1 defRef = readCell w defRef :=
    initStructRef_read_ne w defRef u1 defRef hne1
  have h3 : readCell p2.1 defRef = readCell w defRef := by
    rw [initStructRef_read_ne p1.1 defRef u2 defRef hne2, h2]
  have h4 : readCell p2.1 p1.2 = readCell p1.1 p1.2 := by
    refine initStructRef_read_ne p1.1 defRef u2 p1.2 ?_
    omega
  refine ⟨?_, h2, h3, h4, ?_, ?_⟩
  · exact readCell_allocCell_self w (readCell w defRef)
  · have := setFieldRef_ne p2.1 p2.2 defRef i v (by omega)
    rw [show w3 = setFieldRef p2.1 p2.2 i v from rfl, this, h3]
  · have := setFieldRef_ne p2.1 p2.2 p1.2 i v (by omega)
    rw [show w3 = setFieldRef p2.1 p2.2 i v from rfl, this, h4]

/-- Witness for C10 on a one-cell store holding the class defaults. -/
theorem c10_instance_independence_witness :
    let w : World := { cells := [[Value.vint 0]] }
    let p1 := initStructRef w 0 []
    let p2 := initStructRef p1.1 0 [(0, Value.vint 5)]
    let w3 := setFieldRef p2.1 p2.2 0 (Value.vint 9)
    readCell (initStructRef w 0 []).1 (initStructRef w 0 []).2 =
      readCell w 0 ∧
    readCell p1.1 0 = readCell w 0 ∧
    readCell p2.1 0 = readCell w 0 ∧
    readCell p2.1 p1.2 = readCell p1.1 p1.2 ∧
    readCell w3 0 = readCell w 0 ∧
    readCell w3 p1.2 = readCell p1.1 p1.2 :=
  c10_instance_independence { cells := [[Value.vint 0]] } 0 (by decide)
    [] [(0, Value.vint 5)] 0 (Value.vint 9)

/-! ## Association-list lemmas for the kwargs loop -/

theorem lookup_eq_none_iff {α : Type} (l : List (String × α)) (k : String) :
    l.lookup k = none ↔ ∀ p ∈ l, p.1 ≠ k := by
  induction l with
  | nil => simp
  | cons q l ih =>
      rcases q with ⟨k', v⟩
      by_cases h : k = k'
      · subst h
        simp [List.lookup]
      · simp only [List.lookup, beq_false_of_ne h, List.mem_cons]
        constructor
        · intro hl p hp
          rcases hp with hp | hp
          · subst hp
            exact fun he => h he.symm
          · exact (ih.mp hl) p hp
        · intro hall
          exact ih.mpr (fun p hp => hall p (Or.inr hp))

theorem lookup_some_mem {α : Type} {l : List (String × α)} {k : String} {v : α}
    (h : l.lookup k = some v) : (k, v) ∈ l := by
  induction l with
  | nil => cases h
  | cons q l ih =>
      rcases q with ⟨k', v'⟩
      by_cases he : k = k'
      · subst he
        simp [List.lookup] at h
        subst h
        exact List.mem_cons_self _ _
      · simp only [List.lookup, beq_false_of_ne he] at h
        exact List.mem_cons_of_mem _ (ih h)

theorem lookup_of_mem_nodup {α : Type} {l : List (String × α)} {k : String}
    {v : α} (hn : (l.map Prod.fst).Nodup) (hm : (k, v) ∈ l) :
    l.lookup k = some v := by
  induction l with
  | nil => cases hm
  | cons q l ih =>
      rcases q with ⟨k', v'⟩
      simp only [List.map_cons, List.nodup_cons] at hn
      rcases List.mem_cons.mp hm with heq | hmem
      · cases heq
        simp [List.lookup]
      · have hke : k ≠ k' := by
          intro he
          apply hn.1
          rw [← he]
          exact List.mem_map.mpr ⟨(k, v), hmem, rfl⟩
        simp only [List.lookup, beq_false_of_ne hke]
        exact ih hn.2 hmem

theorem eraseKey_eq_filter (kwargs : List (String × Value)) (k : String) :
    eraseKey kwargs k = kwargs.filter (fun p => ¬ p.1 = k) := rfl

theorem eraseKey_of_lookup_none {kwargs : List (String × Value)} {k : String}
    (h : kwargs.lookup k = none) : eraseKey kwargs k = kwargs := by
  rw [eraseKey_eq_filter]
  refine List.filter_eq_self.mpr ?_
  intro p hp
  simpa using (lookup_eq_none_iff kwargs k).mp h p hp

theorem mem_eraseKey {kwargs : List (String × Value)} {k : String}
    {p : String × Value} :
    p ∈ eraseKey kwargs k ↔ p ∈ kwargs ∧ p.1 ≠ k := by
  rw [eraseKey_eq_filter]
  simp

theorem eraseKey_keys_nodup {kwargs : List (String × Value)} {k : String}
    (h : (kwargs.map Prod.fst).Nodup) :
    ((eraseKey kwargs k).map Prod.fst).Nodup := by
  rw [eraseKey_eq_filter]
  exact ((List.filter_sublist kwargs).map Prod.fst).nodup h

/-! ## Lemmas about the kwargs-consuming loop of `Struct.__init__` -/

theorem initLoop_nil (vals : List Value) (kw : List (String × Value)) :
    initLoop [] vals kw = (vals, kw) := rfl

theorem initLoop_cons (n : String) (idx : Nat) (m : List (String × Nat))
    (vals : List Value) (kw : List (String × Value)) :
    initLoop ((n, idx) :: m) vals kw =
      match kw.lookup n with
      | some v => initLoop m (vals.set idx v) (eraseKey kw n)
      | none => initLoop m vals kw := by
  unfold initLoop
  rw [List.foldl_cons]
  cases kw.lookup n <;> rfl

/-- The kwargs left over after the loop are exactly the ones whose key is
not in the name→index map. -/
theorem initLoop_snd (m : List (String × Nat)) :
    ∀ (vals : List Value) (kw : List (String × Value)),
      (initLoop m vals kw).2 =
        kw.filter (fun p => m.lookup p.1 = none) := by
  induction m with
  | nil =>
      intro vals kw
      rw [initLoop_nil]
      symm
      refine List.filter_eq_self.mpr ?_
      intro p hp
      simp
  | cons q m ih =>
      rcases q with ⟨n, idx⟩
      intro vals kw
      rw [initLoop_cons]
      cases hkw : kw.lookup n with
      | some v =>
          simp only []
          rw [ih]
          rw [eraseKey_eq_filter, List.filter_filter]
          refine List.filter_congr ?_
          intro p hp
          by_cases hpn : p.1 = n
          · simp [List.lookup, hpn]
          · simp [List.lookup, beq_false_of_ne hpn, hpn]
      | none =>
          simp only []
          rw [ih]
          refine List.filter_congr ?_
          intro p hp
          have hpn : p.1 ≠ n := (lookup_eq_none_iff kw n).mp hkw p hp
          simp [List.lookup, beq_false_of_ne hpn]

/-- Positions no map entry points at are never written by the loop. -/
theorem initLoop_get_untouched (m : List (String × Nat)) :
    ∀ (vals : List Value) (kw : List (String × Value)) (i : Nat),
      (∀ q ∈ m, q.2 ≠ i) →
      (initLoop m vals kw).1.get? i = vals.get? i := by
  induction m with
  | nil => intro vals kw i _; rfl
  | cons q m ih =>
      rcases q with ⟨n, idx⟩
      intro vals kw i hq
      have hidx : idx ≠ i := hq (n, idx) (List.mem_cons_self _ _)
      rw [initLoop_cons]
      cases hkw : kw.lookup n with
      | some v =>
          simp only []
          rw [ih _ _ i (fun q hqm => hq q (List.mem_cons_of_mem _ hqm))]
          exact List.get?_set_ne _ _ hidx
      | none =>
          simp only []
          exact ih _ _ i (fun q hqm => hq q (List.mem_cons_of_mem _ hqm))

/-- A kwargs entry whose key maps to position `i` ends up stored at
position `i`. -/
theorem initLoop_get_set (m : List (String × Nat)) :
    ∀ (vals : List Value) (kw : List (String × Value)) (k : String) (v : Value)
      (i : Nat),
      (m.map Prod.fst).Nodup → (m.map Prod.snd).Nodup →
      (∀ q ∈ m, q.2 < vals.length) →
      (kw.map Prod.fst).Nodup →
      (k, v) ∈ kw → m.lookup k = some i →
      (initLoop m vals kw).1.get? i = some v := by
  induction m with
  | nil => intro vals kw k v i _ _ _ _ _ hl; cases hl
  | cons q m ih =>
      rcases q with ⟨n, idx⟩
      intro vals kw k v i hmk hmi hrange hkwn hmem hl
      simp only [List.map_cons, List.nodup_cons] at hmk hmi
      by_cases hk : k = n
      · subst hk
        have hidx : idx = i := by
          simp [List.lookup] at hl
          exact hl
        subst hidx
        have hkwl : kw.lookup k = some v := lookup_of_mem_nodup hkwn hmem
        rw [initLoop_cons, hkwl]
        simp only []
        rw [initLoop_get_untouched m _ _ idx (fun q hqm => by
          intro he
          exact hmi.1 (List.mem_map.mpr ⟨q, hqm, he⟩))]
        exact List.get?_set_eq_of_lt _
          (hrange (k, idx) (List.mem_cons_self _ _))
      · have hl' : m.lookup k = some i := by
          simp only [List.lookup, beq_false_of_ne hk] at hl
          exact hl
        rw [initLoop_cons]
        cases hkw : kw.lookup n with
        | some v0 =>
            simp only []
            refine ih _ _ k v i hmk.2 hmi.2 ?_ (eraseKey_keys_nodup hkwn) ?_ hl'
            · intro q hqm
              rw [List.length_set]
              exact hrange q (List.mem_cons_of_mem _ hqm)
            · exact mem_eraseKey.mpr ⟨hmem, hk⟩
        | none =>
            simp only []
            exact ih _ _ k v i hmk.2 hmi.2
              (fun q hqm => hrange q (List.mem_cons_of_mem _ hqm)) hkwn hmem hl'

/-- Positions that no kwargs key maps to keep their prior (default)
values. -/
theorem initLoop_get_default (m : List (String × Nat)) :
    ∀ (vals : List Value) (kw : List (String × Value)) (i : Nat),
      (∀ k v, (k, v) ∈ kw → m.lookup k ≠ some i) →
      (initLoop m vals kw).1.get? i = vals.get? i := by
  induction m with
  | nil => intro vals kw i _; rfl
  | cons q m ih =>
      rcases q with ⟨n, idx⟩
      intro vals kw i hnone
      rw [initLoop_cons]
      cases hkw : kw.lookup n with
      | none =>
          simp only []
          refine ih _ _ i ?_
          intro k v hkv
          have hkn : k ≠ n := (lookup_eq_none_iff kw n).mp hkw (k, v) hkv
          have := hnone k v hkv
          simpa [List.lookup, beq_false_of_ne hkn] using this
      | some v0 =>
          simp only []
          have hmem : (n, v0) ∈ kw := lookup_some_mem hkw
          have hidx : idx ≠ i := by
            have := hnone n v0 hmem
            simp [List.lookup] at this
            exact this
          rw [ih _ _ i ?_]
          · exact List.get?_set_ne _ _ hidx
          · intro k v hkv
            have hkn : k ≠ n := (mem_eraseKey.mp hkv).2
            have := hnone k v (mem_eraseKey.mp hkv).1
            simpa [List.lookup, beq_false_of_ne hkn] using this

/-! ## The name→index map of a compiled type -/

/-- Folding fresh, pairwise-distinct keys into an insertion-ordered dict
just appends the entries. -/
theorem foldl_dictInsert_fresh {β α : Type} (key : β → String) (val : β → α)
    (l : List β) :
    ∀ d : List (String × α),
      (∀ p ∈ l, ∀ q ∈ d, q.1 ≠ key p) → (l.map key).Nodup →
      l.foldl (fun d p => dictInsert d (key p) (val p)) d =
        d ++ l.map (fun p => (key p, val p)) := by
  induction l with
  | nil => intro d _ _; simp
  | cons p l ih =>
      intro d hfresh hnodup
      simp only [List.map_cons, List.nodup_cons] at hnodup
      rw [List.foldl_cons]
      have hany : d.any (fun q => q.1 = key p) = false := by
        refine List.any_eq_false.mpr ?_
        intro q hq
        simpa using hfresh p (List.mem_cons_self _ _) q hq
      have hins : dictInsert d (key p) (val p) = d ++ [(key p, val p)] := by
        unfold dictInsert
        rw [hany]
        rfl
      rw [hins, ih (d ++ [(key p, val p)]) ?_ hnodup.2]
      · simp
      · intro r hr q hq
        rcases List.mem_append.mp hq with hq | hq
        · exact hfresh r (List.mem_cons_of_mem _ hr) q hq
        · simp only [List.mem_singleton] at hq
          subst hq
          intro he
          exact hnodup.1 (List.mem_map.mpr ⟨r, hr, he.symm⟩)

/-- With pairwise-distinct field names, `_NAME_INDEX_MAP` is just the
enumerated `(name, position)` list. -/
theorem nameIndexPairs_eq {fields : List StructFieldData}
    (h : (fields.map (fun f => f.name)).Nodup) :
    nameIndexPairs fields = fields.enum.map (fun p => (p.2.name, p.1)) := by
  have hkeys : (fields.enum.map (fun p => p.2.name)).Nodup := by
    have h2 : fields.enum.map (fun p => p.2.name) =
        (fields.enum.map Prod.snd).map (fun f => f.name) := by
      rw [List.map_map]
      rfl
    rw [h2, List.enum_map_snd]
    exact h
  unfold nameIndexPairs
  have := foldl_dictInsert_fresh (fun p : Nat × StructFieldData => p.2.name)
    Prod.fst fields.enum [] (by intro p _ q hq; cases hq) hkeys
  simpa using this

theorem nameIndexPairs_keys_nodup {fields : List StructFieldData}
    (h : (fields.map (fun f => f.name)).Nodup) :
    ((nameIndexPairs fields).map Prod.fst).Nodup := by
  rw [nameIndexPairs_eq h, List.map_map]
  have h2 : (Prod.fst ∘ fun p : Nat × StructFieldData => (p.2.name, p.1)) =
      fun p : Nat × StructFieldData => p.2.name := rfl
  rw [h2]
  have h3 : fields.enum.map (fun p => p.2.name) =
      (fields.enum.map Prod.snd).map (fun f => f.name) := by
    rw [List.map_map]
    rfl
  rw [h3, List.enum_map_snd]
  exact h

theorem nameIndexPairs_snd_nodup {fields : List StructFieldData}
    (h : (fields.map (fun f => f.name)).Nodup) :
    ((nameIndexPairs fields).map Prod.snd).Nodup := by
  rw [nameIndexPairs_eq h, List.map_map]
  have h2 : (Prod.snd ∘ fun p : Nat × StructFieldData => (p.2.name, p.1)) =
      (Prod.fst : Nat × StructFieldData → Nat) := rfl
  rw [h2, List.enum_map_fst]
  exact List.nodup_range _

theorem nameIndexPairs_snd_lt {fields : List StructFieldData}
    (h : (fields.map (fun f => f.name)).Nodup) :
    ∀ q ∈ nameIndexPairs fields, q.2 < fields.length := by
  intro q hq
  have hm : q.2 ∈ (nameIndexPairs fields).map Prod.snd :=
    List.mem_map_of_mem _ hq
  rw [nameIndexPairs_eq h, List.map_map] at hm
  have h2 : (Prod.snd ∘ fun p : Nat × StructFieldData => (p.2.name, p.1)) =
      (Prod.fst : Nat × StructFieldData → Nat) := rfl
  rw [h2, List.enum_map_fst] at hm
  exact List.mem_range.mp hm

/-- `Struct.__init__` written out over the loop. -/
theorem Struct.init_eq (cls : CompiledStruct) (kwargs : List (String × Value)) :
    Struct.init cls kwargs =
      (if (initLoop (nameIndexPairs cls.fields) (defaultValues cls) kwargs).2 = []
       then .ok ⟨(initLoop (nameIndexPairs cls.fields) (defaultValues cls)
          kwargs).1, false⟩
       else .error (.structException (unexpectedKwargsMsg
          (initLoop (nameIndexPairs cls.fields) (defaultValues cls) kwargs).2))) :=
  rfl

/-! ## Claim C8: record construction with named values -/

/-- C8: constructing a record whose kwargs contain unknown names fails with
the library's `StructException`, whose report (`unexpectedKwargsMsg`) names
exactly the full list of unrecognized keys — not just the first; when every
key is a known field name, construction succeeds, each kwargs value lands at
its field's position, and every position no kwargs key maps to keeps the
class default.  (Field names of a compiled type are pairwise distinct, as
are the keys of a Python kwargs dict — the two `Nodup` hypotheses.) -/
theorem c8_init_kwargs (cls : CompiledStruct) (kwargs : List (String × Value))
    (hnames : (cls.fields.map (fun f => f.name)).Nodup)
    (hkw : (kwargs.map Prod.fst).Nodup) :
    (kwargs.filter (fun p => lookupIndex cls p.1 = none) = [] →
      ∃ s, Struct.init cls kwargs = .ok s ∧
        (∀ k v i, (k, v) ∈ kwargs → lookupIndex cls k = some i →
          s.values.get? i = some v) ∧
        (∀ i, (∀ k v, (k, v) ∈ kwargs → lookupIndex cls k ≠ some i) →
          s.values.get? i = (defaultValues cls).get? i)) ∧
    (kwargs.filter (fun p => lookupIndex cls p.1 = none) ≠ [] →
      Struct.init cls kwargs = .error (.structException (unexpectedKwargsMsg
        (kwargs.filter (fun p => lookupIndex cls p.1 = none))))) := by
  have hstep : (initLoop (nameIndexPairs cls.fields) (defaultValues cls)
      kwargs).2 = kwargs.filter (fun p => lookupIndex cls p.1 = none) :=
    initLoop_snd (nameIndexPairs cls.fields) (defaultValues cls) kwargs
  have hrange : ∀ q ∈ nameIndexPairs cls.fields,
      q.2 < (defaultValues cls).length := by
    intro q hq
    have := nameIndexPairs_snd_lt hnames q hq
    simpa [defaultValues] using this
  constructor
  · intro hempty
    refine ⟨⟨(initLoop (nameIndexPairs cls.fields)
        (defaultValues cls) kwargs).1, false⟩, ?_, ?_, ?_⟩
    · rw [Struct.init_eq, if_pos (by rw [hstep]; exact hempty)]
    · intro k v i hmem hli
      exact initLoop_get_set (nameIndexPairs cls.fields) (defaultValues cls)
        kwargs k v i (nameIndexPairs_keys_nodup hnames)
        (nameIndexPairs_snd_nodup hnames) hrange hkw hmem hli
    · intro i hnone
      exact initLoop_get_default (nameIndexPairs cls.fields)
        (defaultValues cls) kwargs i hnone
  · intro hne
    rw [Struct.init_eq, if_neg (by rw [hstep]; exact hne), hstep]

/-- Witness for C8, both branches: on the concrete type, kwargs with the two
unknown keys `x` and `y` are rejected with a report naming both, and kwargs
using only known names succeed and land at the right positions. -/
theorem c8_init_kwargs_witness :
    Struct.init cls9 [("flag", .vint 9), ("x", .vint 1), ("y", .vint 2)] =
      .error (.structException (unexpectedKwargsMsg
        [("x", .vint 1), ("y", .vint 2)])) ∧
    ∃ s, Struct.init cls9 [("flag", .vint 9)] = .ok s ∧
      s.values.get? 1 = some (.vint 9) ∧
      s.values.get? 0 = some (.vint 0) := by
  constructor
  · have h := (c8_init_kwargs cls9
      [("flag", .vint 9), ("x", .vint 1), ("y", .vint 2)]
      (by decide) (by decide)).2 (by decide)
    exact h.trans rfl
  · obtain ⟨s, hs, hset, hdef⟩ := (c8_init_kwargs cls9 [("flag", .vint 9)]
      (by decide) (by decide)).1 (by decide)
    refine ⟨s, hs, ?_, ?_⟩
    · exact hset "flag" (.vint 9) 1 (by decide) (by decide)
    · have h0 : ∀ k v, (k, v) ∈ [("flag", Value.vint 9)] →
          lookupIndex cls9 k ≠ some 0 := by
        intro k v hm
        simp only [List.mem_singleton] at hm
        cases hm
        decide
      rw [hdef 0 h0]
      decide

end Structify
